import Mathlib

/-!
Shallow embedding of the `god` key-value store (package `god`, file `god.go`)
and of the membership ring client (package `discord`), together with theorems
settling the specification claims about them.

Machine integers are modelled as `Nat`; the Go `Result` bitmask lives in `Nat`
with explicit bitwise operations.  The external `gotomic.Hash` concurrent map
is modelled as an association list (per the spec's interface description);
the external hash-code function is a parameter `hc : String → Nat` of every
store operation, mirroring `gotomic.Hashable.HashCode`.
-/

namespace god

/-- Number of shards: `shards = 1 << 9` in the source. -/
def shards : Nat := 1 <<< 9

/-- Format string for arity errors, `arity_error` in the source. -/
def arity_error : String := "Illegal number of parameters. Wanted %v but got %v."

/-- Go `Command` is an `int`; the named commands are made with `iota`:
`GET = 0`, `PUT = 1`, `DELETE = 2`, `KEYS = 3`.  Any other value is an
unknown command. -/
abbrev Command := Nat

def GET : Command := 0
def PUT : Command := 1
def DELETE : Command := 2
def KEYS : Command := 3

/-- Go `Result` is an `int` used as a bitmask: `OK = 1 << 0`, then each
following constant shifts one more (`iota`). -/
abbrev Result := Nat

def OK : Result := 1
def MISSING : Result := 2
def EXISTS : Result := 4
def UNKNOWN : Result := 8
def BAD : Result := 16
def ARITY : Result := 32

/-- Go `type Operation struct { Command Command; Parameters []string }`. -/
structure Operation where
  command : Command
  parameters : List String
deriving DecidableEq, Repr

/-- Go `type Response struct { Result Result; Parts []string }`.  A Go `nil`
slice for `Parts` is modelled as the empty list. -/
structure Response where
  result : Result
  parts : List String
deriving DecidableEq, Repr

/-- Modelled from the spec: one shard is an instance of the external
concurrent key-value map primitive (`gotomic.Hash`), "supporting
get/put/delete/iterate keyed by precomputed hash code"; its key→value
contents are modelled as an association list with unique keys. -/
abbrev Shard := List (String × String)

/-- Modelled from the spec: `gotomic.Hash.GetHC` looks the key up and
reports presence. -/
def getHC : Shard → String → Option String
  | [], _ => none
  | (k', v') :: t, k => if k' = k then some v' else getHC t k

/-- Modelled from the spec: `gotomic.Hash.PutHC` inserts-or-replaces the
binding and returns the previous value when the key existed. -/
def putHC : Shard → String → String → Option String × Shard
  | [], k, v => (none, [(k, v)])
  | (k', v') :: t, k, v =>
    if k' = k then (some v', (k, v) :: t)
    else
      let p := putHC t k v
      (p.1, (k', v') :: p.2)

/-- Modelled from the spec: `gotomic.Hash.DeleteHC` removes the binding and
returns the removed value when the key existed. -/
def deleteHC : Shard → String → Option String × Shard
  | [], _ => (none, [])
  | (k', v') :: t, k =>
    if k' = k then (some v', t)
    else
      let p := deleteHC t k
      (p.1, (k', v') :: p.2)

/-- The state of a `God` store.  The Go struct holds a fixed array of
`shards` shard pointers, a buffered log channel, and the `doLog` flag; the
array is modelled as a total function from shard index to shard contents
(only indices below `shards` are ever used), and the channel as the list
of operations enqueued on it, in order — this is exactly the sequence the
background `log` goroutine appends to the current log file. -/
structure God where
  hashes : Nat → Shard
  logQueue : List Operation
  doLog : Bool

/-- A freshly constructed store: every shard empty, nothing logged yet.
`NewGod` builds this with `doLog = false`, replays on-disk history, then
sets `doLog = true`; `freshGod b` is that state with the flag at `b`. -/
def freshGod (doLog : Bool) : God := ⟨fun _ => [], [], doLog⟩

/-- The shard index for a key: `hashCode & (shards - 1)` in `God.shard`. -/
def shardIndex (hc : String → Nat) (k : String) : Nat :=
  hc k &&& (shards - 1)

/-- Go `God.shard` returns the shard (pointer) for a hashable key; the
mutating operations below write back through the same index. -/
def God.shard (hc : String → Nat) (self : God) (k : String) : Shard :=
  self.hashes (shardIndex hc k)

/-- The diagnostic message `fmt.Sprint(arity_error, wanted, got)`:
`fmt.Sprint` concatenates, inserting a space only between two non-string
operands. -/
def arityMessage (wanted got : Nat) : String :=
  arity_error ++ toString wanted ++ " " ++ toString got

/-- The response `okArity` writes on an arity mismatch:
`Result = BAD | ARITY`, one diagnostic part. -/
def arityResponse (wanted got : Nat) : Response :=
  ⟨BAD ||| ARITY, [arityMessage wanted got]⟩

/-- Go `God.get`: arity 1; looks the key up in its shard; `OK|EXISTS` with
the value, or `OK|MISSING` with `Parts = nil`.  Never mutates, never logs. -/
def God.get (hc : String → Nat) (self : God) (o : Operation) : God × Response :=
  if o.parameters.length ≠ 1 then (self, arityResponse 1 o.parameters.length)
  else
    let k := o.parameters.getD 0 ""
    (self,
      match getHC (self.hashes (shardIndex hc k)) k with
      | some t => ⟨OK ||| EXISTS, [t]⟩
      | none => ⟨OK ||| MISSING, []⟩)

/-- Go `God.put`: arity 2; when `doLog` is set the operation is sent on the
log channel; then insert-or-replace in the key's shard; `OK|EXISTS` with
the previous value, or `OK|MISSING` with one empty-string part. -/
def God.put (hc : String → Nat) (self : God) (o : Operation) : God × Response :=
  if o.parameters.length ≠ 2 then (self, arityResponse 2 o.parameters.length)
  else
    let self1 := if self.doLog then { self with logQueue := self.logQueue ++ [o] } else self
    let k := o.parameters.getD 0 ""
    let i := shardIndex hc k
    let p := putHC (self1.hashes i) k (o.parameters.getD 1 "")
    let self2 := { self1 with hashes := fun j => if j = i then p.2 else self1.hashes j }
    (self2,
      match p.1 with
      | some t => ⟨OK ||| EXISTS, [t]⟩
      | none => ⟨OK ||| MISSING, [""]⟩)

/-- Go `God.del`: arity 1; removes the key from its shard; `OK|EXISTS` with
the removed value, or `OK|MISSING` with one empty-string part.  Note: the
source sends nothing on the log channel here. -/
def God.del (hc : String → Nat) (self : God) (o : Operation) : God × Response :=
  if o.parameters.length ≠ 1 then (self, arityResponse 1 o.parameters.length)
  else
    let k := o.parameters.getD 0 ""
    let i := shardIndex hc k
    let p := deleteHC (self.hashes i) k
    let self2 := { self with hashes := fun j => if j = i then p.2 else self.hashes j }
    (self2,
      match p.1 with
      | some t => ⟨OK ||| EXISTS, [t]⟩
      | none => ⟨OK ||| MISSING, [""]⟩)

/-- Go `God.keys`: arity 0; collects every key of every shard; `OK` with
the collected keys as parts. -/
def God.keys (hc : String → Nat) (self : God) (o : Operation) : God × Response :=
  if o.parameters.length ≠ 0 then (self, arityResponse 0 o.parameters.length)
  else
    (self, ⟨OK, (List.range shards).foldl (fun acc i => acc ++ (self.hashes i).map Prod.fst) []⟩)

/-- Go `God.Perform`: dispatch on the command tag; unrecognized tags give
`UNKNOWN` with `Parts = nil`. -/
def God.Perform (hc : String → Nat) (self : God) (o : Operation) : God × Response :=
  if o.command = GET then God.get hc self o
  else if o.command = PUT then God.put hc self o
  else if o.command = DELETE then God.del hc self o
  else if o.command = KEYS then God.keys hc self o
  else (self, ⟨UNKNOWN, []⟩)

/-- Run a sequence of operations, keeping only the final state.  This is
what `God.load` does when replaying a log file (each decoded operation is
fed to `Perform`), and also the state evolution of live traffic. -/
def performAll (hc : String → Nat) (g : God) (ops : List Operation) : God :=
  ops.foldl (fun g o => (God.Perform hc g o).1) g

/-- Run a sequence of operations, collecting every response in order. -/
def performSeq (hc : String → Nat) (g : God) (ops : List Operation) : God × List Response :=
  match ops with
  | [] => (g, [])
  | o :: rest =>
    let p := God.Perform hc g o
    let q := performSeq hc p.1 rest
    (q.1, p.2 :: q.2)

/-- The key→value mapping the store currently realizes: look the key up in
the shard its hash code routes it to. -/
def storeLookup (hc : String → Nat) (g : God) (k : String) : Option String :=
  getHC (g.hashes (shardIndex hc k)) k

/-- How many of the six named bitmask flags a Result carries set. -/
def flagCount (r : Result) : Nat :=
  ([OK, MISSING, EXISTS, UNKNOWN, BAD, ARITY].filter (fun f => decide (r &&& f = f))).length

/-- The expected parameter count of each known command: GET=1, PUT=2,
DELETE=1, KEYS=0 (the `wanted` argument each handler passes to `okArity`). -/
def arityOf (c : Command) : Option Nat :=
  if c = GET then some 1
  else if c = PUT then some 2
  else if c = DELETE then some 1
  else if c = KEYS then some 0
  else none

end god

namespace discord

/-- Go `common.Remote`: a ring member's (position, address) pair.  The
fixed-width position bytes are modelled as a list of naturals. -/
structure Remote where
  pos : List Nat
  addr : String
deriving DecidableEq, Repr

/-- Modelled from the spec: the external `common.Ring.Remove` operation
"purges a Remote from the ring view"; the view is modelled as the list of
member Remotes. -/
def ringRemove (ring : List Remote) (remote : Remote) : List Remote :=
  ring.filter (fun x => decide (x ≠ remote))

/-- The slice of `discord.Node` state that `RemoveNode` and `GetSuccessor`
read: the node's own address and its ring view. -/
structure Node where
  addr : String
  ring : List Remote
deriving DecidableEq, Repr

/-- Go `Node.RemoveNode`: panics (modelled as `Except.error`) when asked to
remove a Remote whose address equals the node's own address; otherwise
removes it from the ring view. -/
def Node.RemoveNode (self : Node) (remote : Remote) : Except String Node :=
  if remote.addr = self.addr then
    .error (self.addr ++ " is trying to remove itself from the routing!")
  else
    .ok { self with ring := ringRemove self.ring remote }

/-- The environment a `GetSuccessor` resolution step runs in: the external
`common.Ring.Remotes` query (predecessor, exact match or none, successor
for a key over the current view), whether a remote call to a given node
succeeds, and the answer a successful remote `GetSuccessor` call writes
back. -/
structure RingEnv where
  remotes : List Remote → List Nat → Remote × Option Remote × Remote
  callOk : Remote → Bool
  callAnswer : Remote → List Nat → Remote

/-- Outcome of one unfolding of `Node.GetSuccessor`: an answer, a retry
with an updated node state (the recursive call), or a panic bubbled up
from `RemoveNode`. -/
inductive StepResult where
  | retry (node : Node)
  | answer (r : Remote)
  | panicked (msg : String)
deriving DecidableEq, Repr

/-- One resolution step of Go `Node.GetSuccessor`: look up predecessor,
match and successor for the key; an exact match replaces the predecessor;
if the (possibly replaced) predecessor is not self, call it remotely; on
call failure the source runs `self.RemoveNode(*successor)` and retries. -/
def Node.getSuccessorStep (env : RingEnv) (self : Node) (key : List Nat) : StepResult :=
  let t := env.remotes self.ring key
  let predecessor := t.2.1.getD t.1
  let successor := t.2.2
  if predecessor.addr ≠ self.addr then
    if env.callOk predecessor then .answer (env.callAnswer predecessor key)
    else
      match self.RemoveNode successor with
      | .error m => .panicked m
      | .ok n2 => .retry n2
  else .answer successor

end discord

namespace god

lemma getHC_putHC_self (s : Shard) (k v : String) :
    getHC (putHC s k v).2 k = some v := by
  induction s with
  | nil => simp [putHC, getHC]
  | cons h t ih =>
    obtain ⟨k', v'⟩ := h
    by_cases hk : k' = k <;> simp [putHC, hk, getHC, ih]

lemma getHC_putHC_ne (s : Shard) {k' k : String} (v : String) (hk : k' ≠ k) :
    getHC (putHC s k' v).2 k = getHC s k := by
  induction s with
  | nil => simp [putHC, getHC, hk]
  | cons h t ih =>
    obtain ⟨k0, v0⟩ := h
    by_cases h0 : k0 = k' <;> simp [putHC, h0, getHC, ih, hk]

lemma putHC_fst (s : Shard) (k v : String) :
    (putHC s k v).1 = getHC s k := by
  induction s with
  | nil => simp [putHC, getHC]
  | cons h t ih =>
    obtain ⟨k', v'⟩ := h
    by_cases hk : k' = k <;> simp [putHC, hk, getHC, ih]

lemma getHC_deleteHC_ne (s : Shard) {k' k : String} (hk : k' ≠ k) :
    getHC (deleteHC s k').2 k = getHC s k := by
  induction s with
  | nil => simp [deleteHC, getHC]
  | cons h t ih =>
    obtain ⟨k0, v0⟩ := h
    by_cases h0 : k0 = k'
    · subst h0
      simp [deleteHC, getHC, hk]
    · simp [deleteHC, h0, getHC, ih]

lemma deleteHC_fst (s : Shard) (k : String) :
    (deleteHC s k).1 = getHC s k := by
  induction s with
  | nil => simp [deleteHC, getHC]
  | cons h t ih =>
    obtain ⟨k', v'⟩ := h
    by_cases hk : k' = k <;> simp [deleteHC, hk, getHC, ih]

lemma get_state (hc : String → Nat) (g : God) (o : Operation) :
    (God.get hc g o).1 = g := by
  unfold God.get
  split <;> rfl

lemma keys_state (hc : String → Nat) (g : God) (o : Operation) :
    (God.keys hc g o).1 = g := by
  unfold God.keys
  split <;> rfl

lemma logStep_hashes (g : God) (o : Operation) :
    (if g.doLog then { g with logQueue := g.logQueue ++ [o] } else g).hashes = g.hashes := by
  by_cases h : g.doLog <;> simp [h]

lemma logStep_doLog (g : God) (o : Operation) :
    (if g.doLog then { g with logQueue := g.logQueue ++ [o] } else g).doLog = g.doLog := by
  by_cases h : g.doLog <;> simp [h]

lemma put_state_hashes (hc : String → Nat) (g : God) (o : Operation)
    (h : o.parameters.length = 2) (j : Nat) :
    (God.put hc g o).1.hashes j =
      if j = shardIndex hc (o.parameters.getD 0 "") then
        (putHC (g.hashes (shardIndex hc (o.parameters.getD 0 ""))) (o.parameters.getD 0 "")
          (o.parameters.getD 1 "")).2
      else g.hashes j := by
  unfold God.put
  rw [if_neg (by simp [h])]
  by_cases hd : g.doLog <;> simp [hd]

lemma put_state_logQueue (hc : String → Nat) (g : God) (o : Operation)
    (h : o.parameters.length = 2) :
    (God.put hc g o).1.logQueue =
      if g.doLog then g.logQueue ++ [o] else g.logQueue := by
  unfold God.put
  rw [if_neg (by simp [h])]
  by_cases hd : g.doLog <;> simp [hd]

lemma del_state_hashes (hc : String → Nat) (g : God) (o : Operation)
    (h : o.parameters.length = 1) (j : Nat) :
    (God.del hc g o).1.hashes j =
      if j = shardIndex hc (o.parameters.getD 0 "") then
        (deleteHC (g.hashes (shardIndex hc (o.parameters.getD 0 ""))) (o.parameters.getD 0 "")).2
      else g.hashes j := by
  unfold God.del
  rw [if_neg (by simp [h])]

lemma del_state_logQueue (hc : String → Nat) (g : God) (o : Operation) :
    (God.del hc g o).1.logQueue = g.logQueue := by
  unfold God.del
  split <;> rfl

lemma storeLookup_put_self (hc : String → Nat) (g : God) (c : Command) (k v : String) :
    storeLookup hc (God.put hc g ⟨c, [k, v]⟩).1 k = some v := by
  unfold storeLookup
  rw [put_state_hashes hc g ⟨c, [k, v]⟩ rfl (shardIndex hc k)]
  have h0 : ({ command := c, parameters := [k, v] } : Operation).parameters.getD 0 "" = k := rfl
  have h1 : ({ command := c, parameters := [k, v] } : Operation).parameters.getD 1 "" = v := rfl
  rw [h0, h1, if_pos rfl]
  exact getHC_putHC_self _ _ _

lemma storeLookup_put_ne (hc : String → Nat) (g : God) (o : Operation) (k : String)
    (hk : o.parameters.getD 0 "" ≠ k) :
    storeLookup hc (God.put hc g o).1 k = storeLookup hc g k := by
  by_cases h : o.parameters.length = 2
  · unfold storeLookup
    rw [put_state_hashes hc g o h (shardIndex hc k)]
    by_cases hi : shardIndex hc k = shardIndex hc (o.parameters.getD 0 "")
    · rw [if_pos hi, hi]
      exact getHC_putHC_ne _ _ hk
    · rw [if_neg hi]
  · unfold God.put
    rw [if_pos (by simpa using h)]

lemma storeLookup_del_ne (hc : String → Nat) (g : God) (o : Operation) (k : String)
    (hk : o.parameters.getD 0 "" ≠ k) :
    storeLookup hc (God.del hc g o).1 k = storeLookup hc g k := by
  by_cases h : o.parameters.length = 1
  · unfold storeLookup
    rw [del_state_hashes hc g o h (shardIndex hc k)]
    by_cases hi : shardIndex hc k = shardIndex hc (o.parameters.getD 0 "")
    · rw [if_pos hi, hi]
      exact getHC_deleteHC_ne _ hk
    · rw [if_neg hi]
  · unfold God.del
    rw [if_pos (by simpa using h)]

lemma perform_preserves (hc : String → Nat) (g : God) (o : Operation) (k : String)
    (h : (o.command = PUT ∨ o.command = DELETE) → o.parameters.getD 0 "" ≠ k) :
    storeLookup hc (God.Perform hc g o).1 k = storeLookup hc g k := by
  unfold God.Perform
  split_ifs with h1 h2 h3 h4
  · rw [get_state]
  · rw [storeLookup_put_ne hc g o k (h (Or.inl h2))]
  · rw [storeLookup_del_ne hc g o k (h (Or.inr h3))]
  · rw [keys_state]
  · rfl

lemma storeLookup_performAll (hc : String → Nat) (g : God) (ops : List Operation) (k : String)
    (h : ∀ o ∈ ops, (o.command = PUT ∨ o.command = DELETE) → o.parameters.getD 0 "" ≠ k) :
    storeLookup hc (performAll hc g ops) k = storeLookup hc g k := by
  induction ops generalizing g with
  | nil => rfl
  | cons o rest ih =>
    have step : performAll hc g (o :: rest) = performAll hc (God.Perform hc g o).1 rest := rfl
    rw [step, ih _ (fun o' ho' => h o' (List.mem_cons_of_mem o ho')),
      perform_preserves hc g o k (h o (List.mem_cons_self o rest))]

lemma perform_get_found (hc : String → Nat) (g : God) (k v : String)
    (h : storeLookup hc g k = some v) :
    God.Perform hc g ⟨GET, [k]⟩ = (g, ⟨OK ||| EXISTS, [v]⟩) := by
  unfold God.Perform God.get
  unfold storeLookup at h
  simp [GET, h]

lemma perform_get_missing (hc : String → Nat) (g : God) (k : String)
    (h : storeLookup hc g k = none) :
    God.Perform hc g ⟨GET, [k]⟩ = (g, ⟨OK ||| MISSING, []⟩) := by
  unfold God.Perform God.get
  unfold storeLookup at h
  simp [GET, h]

lemma put_response (hc : String → Nat) (g : God) (c : Command) (k v : String) :
    (God.put hc g ⟨c, [k, v]⟩).2 =
      match storeLookup hc g k with
      | some t => ⟨OK ||| EXISTS, [t]⟩
      | none => ⟨OK ||| MISSING, [""]⟩ := by
  unfold God.put storeLookup
  rw [if_neg (by simp)]
  by_cases hd : g.doLog <;>
    cases hg : getHC (g.hashes (shardIndex hc k)) k <;>
    simp [hd, putHC_fst, hg]

lemma del_response (hc : String → Nat) (g : God) (c : Command) (k : String) :
    (God.del hc g ⟨c, [k]⟩).2 =
      match storeLookup hc g k with
      | some t => ⟨OK ||| EXISTS, [t]⟩
      | none => ⟨OK ||| MISSING, [""]⟩ := by
  unfold God.del storeLookup
  rw [if_neg (by simp)]
  cases hg : getHC (g.hashes (shardIndex hc k)) k <;>
    simp [deleteHC_fst, hg]

lemma perform_put_eq (hc : String → Nat) (g : God) (ps : List String) :
    God.Perform hc g ⟨PUT, ps⟩ = God.put hc g ⟨PUT, ps⟩ := by
  unfold God.Perform
  rw [if_neg (by simp [GET, PUT]), if_pos rfl]

lemma perform_del_eq (hc : String → Nat) (g : God) (ps : List String) :
    God.Perform hc g ⟨DELETE, ps⟩ = God.del hc g ⟨DELETE, ps⟩ := by
  unfold God.Perform
  rw [if_neg (by simp [GET, DELETE]), if_neg (by simp [PUT, DELETE]), if_pos rfl]

/-- Claim C3: an Operation whose parameter count differs from its command's
fixed arity (GET=1, PUT=2, DELETE=1, KEYS=0) makes `Perform` return result
exactly `BAD|ARITY` with one diagnostic message part, and leaves the store
state — every shard map and the log queue — completely untouched. -/
theorem C3_bad_arity_no_side_effect (hc : String → Nat) (g : God) (o : Operation) (n : Nat)
    (h1 : arityOf o.command = some n) (h2 : o.parameters.length ≠ n) :
    God.Perform hc g o = (g, ⟨BAD ||| ARITY, [arityMessage n o.parameters.length]⟩) := by
  unfold arityOf at h1
  unfold God.Perform God.get God.put God.del God.keys
  split_ifs at h1 with hg hp hd hk
  · injection h1 with hn
    subst hn
    rw [if_pos hg, if_pos h2]
    rfl
  · injection h1 with hn
    subst hn
    rw [if_neg hg, if_pos hp, if_pos h2]
    rfl
  · injection h1 with hn
    subst hn
    rw [if_neg hg, if_neg hp, if_pos hd, if_pos h2]
    rfl
  · injection h1 with hn
    subst hn
    rw [if_neg hg, if_neg hp, if_neg hd, if_pos hk, if_pos h2]
    rfl

/-- Witness for C3: `PUT` with a single parameter gets `BAD|ARITY` and the
store is returned unchanged. -/
theorem C3_bad_arity_witness :
    God.Perform (fun _ => 0) (freshGod true) ⟨PUT, ["x"]⟩
      = (freshGod true, ⟨BAD ||| ARITY, [arityMessage 2 1]⟩) :=
  C3_bad_arity_no_side_effect (fun _ => 0) (freshGod true) ⟨PUT, ["x"]⟩ 2 (by decide) (by decide)

/-- Claim C4: from an empty store, `PUT(["a","1"])` answers `{OK|MISSING, [""]}`,
`PUT(["a","2"])` answers `{OK|EXISTS, ["1"]}`, `GET(["a"])` answers
`{OK|EXISTS, ["2"]}`, `DELETE(["a"])` answers `{OK|EXISTS, ["2"]}`, and a
final `GET(["a"])` answers `{OK|MISSING, nil}`; in general `put` answers the
previous value when the key existed and one empty-string part otherwise. -/
theorem C4_example_trace :
    (performSeq (fun _ => 0) (freshGod true)
        [⟨PUT, ["a", "1"]⟩, ⟨PUT, ["a", "2"]⟩, ⟨GET, ["a"]⟩, ⟨DELETE, ["a"]⟩, ⟨GET, ["a"]⟩]).2
      = [⟨OK ||| MISSING, [""]⟩, ⟨OK ||| EXISTS, ["1"]⟩, ⟨OK ||| EXISTS, ["2"]⟩,
         ⟨OK ||| EXISTS, ["2"]⟩, ⟨OK ||| MISSING, []⟩]
    ∧ ∀ (hc : String → Nat) (g : God) (k v : String),
        (God.Perform hc g ⟨PUT, [k, v]⟩).2 =
          match storeLookup hc g k with
          | some t => ⟨OK ||| EXISTS, [t]⟩
          | none => ⟨OK ||| MISSING, [""]⟩ := by
  constructor
  · decide
  · intro hc g k v
    rw [perform_put_eq]
    exact put_response hc g PUT k v

/-- Claim C10: with the key absent, `get` answers `OK|MISSING` with no parts
at all (a Go nil slice), while `put` and `delete` answer `OK|MISSING` with a
single empty-string part. -/
theorem C10_missing_parts (hc : String → Nat) (g : God) (k v : String)
    (h : storeLookup hc g k = none) :
    (God.Perform hc g ⟨GET, [k]⟩).2 = ⟨OK ||| MISSING, []⟩
    ∧ (God.Perform hc g ⟨PUT, [k, v]⟩).2 = ⟨OK ||| MISSING, [""]⟩
    ∧ (God.Perform hc g ⟨DELETE, [k]⟩).2 = ⟨OK ||| MISSING, [""]⟩ := by
  refine ⟨?_, ?_, ?_⟩
  · rw [perform_get_missing hc g k h]
  · rw [perform_put_eq, put_response hc g PUT k v, h]
  · rw [perform_del_eq, del_response hc g DELETE k, h]

/-- Witness for C10: on a fresh store the three commands answer as stated
for the absent key "a". -/
theorem C10_missing_parts_witness :
    (God.Perform (fun _ => 0) (freshGod true) ⟨GET, ["a"]⟩).2 = ⟨OK ||| MISSING, []⟩
    ∧ (God.Perform (fun _ => 0) (freshGod true) ⟨PUT, ["a", "1"]⟩).2 = ⟨OK ||| MISSING, [""]⟩
    ∧ (God.Perform (fun _ => 0) (freshGod true) ⟨DELETE, ["a"]⟩).2 = ⟨OK ||| MISSING, [""]⟩ :=
  C10_missing_parts (fun _ => 0) (freshGod true) "a" "1" (by decide)

/-- Claim C5: after a correct-arity `put(k,v)`, any sequence of operations
none of which is a `PUT` or `DELETE` on `k` leaves a subsequent correct-arity
`get(k)` answering `OK|EXISTS` with the single part `v`. -/
theorem C5_get_after_put (hc : String → Nat) (g : God) (k v : String) (ops : List Operation)
    (h : ∀ o ∈ ops, (o.command = PUT ∨ o.command = DELETE) → o.parameters.getD 0 "" ≠ k) :
    God.Perform hc (performAll hc (God.Perform hc g ⟨PUT, [k, v]⟩).1 ops) ⟨GET, [k]⟩
      = (performAll hc (God.Perform hc g ⟨PUT, [k, v]⟩).1 ops, ⟨OK ||| EXISTS, [v]⟩) := by
  apply perform_get_found
  rw [storeLookup_performAll hc _ ops k h, perform_put_eq]
  exact storeLookup_put_self hc g PUT k v

/-- Witness for C5: putting `("a","1")`, then putting another key and
reading `"a"` in between, the final `get("a")` still answers `OK|EXISTS`
with `"1"`. -/
theorem C5_get_after_put_witness :
    God.Perform (fun _ => 0)
        (performAll (fun _ => 0) (God.Perform (fun _ => 0) (freshGod true) ⟨PUT, ["a", "1"]⟩).1
          [⟨PUT, ["b", "9"]⟩, ⟨GET, ["a"]⟩]) ⟨GET, ["a"]⟩
      = (performAll (fun _ => 0) (God.Perform (fun _ => 0) (freshGod true) ⟨PUT, ["a", "1"]⟩).1
          [⟨PUT, ["b", "9"]⟩, ⟨GET, ["a"]⟩], ⟨OK ||| EXISTS, ["1"]⟩) :=
  C5_get_after_put (fun _ => 0) (freshGod true) "a" "1"
    [⟨PUT, ["b", "9"]⟩, ⟨GET, ["a"]⟩] (by decide)

/-- Claim C6: the shard index for a key is `hashCode & (shards - 1)` — that
is, `hashCode mod 512` — a pure function of the key's hash code; `get`,
`put` and `delete` all route through this same index: `put` and `delete`
leave every other shard untouched and `get` touches none at all. -/
theorem C6_shard_routing (hc : String → Nat) (g : God) (k k' v : String) :
    shardIndex hc k = hc k &&& (shards - 1)
    ∧ shardIndex hc k = hc k % 512
    ∧ (hc k = hc k' → shardIndex hc k = shardIndex hc k')
    ∧ God.shard hc g k = g.hashes (shardIndex hc k)
    ∧ (∀ j, j ≠ shardIndex hc k → (God.put hc g ⟨PUT, [k, v]⟩).1.hashes j = g.hashes j)
    ∧ (∀ j, j ≠ shardIndex hc k → (God.del hc g ⟨DELETE, [k]⟩).1.hashes j = g.hashes j)
    ∧ (God.get hc g ⟨GET, [k]⟩).1 = g := by
  refine ⟨rfl, ?_, ?_, rfl, ?_, ?_, get_state hc g _⟩
  · unfold shardIndex shards
    rw [Nat.one_shiftLeft, Nat.and_pow_two_sub_one_eq_mod]
  · intro h
    unfold shardIndex
    rw [h]
  · intro j hj
    have h0 : ({ command := PUT, parameters := [k, v] } : Operation).parameters.getD 0 "" = k :=
      rfl
    rw [put_state_hashes hc g ⟨PUT, [k, v]⟩ rfl j, h0, if_neg hj]
  · intro j hj
    have h0 : ({ command := DELETE, parameters := [k] } : Operation).parameters.getD 0 "" = k :=
      rfl
    rw [del_state_hashes hc g ⟨DELETE, [k]⟩ rfl j, h0, if_neg hj]

/-- Witness for C6: with a constant hash code of 5 the index is `5 % 512`,
and a `put` on key "a" leaves shard 0 exactly as it was. -/
theorem C6_shard_routing_witness :
    shardIndex (fun _ => 5) "a" = 5 % 512
    ∧ (God.put (fun _ => 5) (freshGod true) ⟨PUT, ["a", "1"]⟩).1.hashes 0
        = (freshGod true).hashes 0 := by
  obtain ⟨h1, h2, h3, h4, h5, h6, h7⟩ :=
    C6_shard_routing (fun _ => 5) (freshGod true) "a" "a" "1"
  exact ⟨h2, h5 0 (by decide)⟩

/-- Claim C1 (failing input): running `PUT("a","1"); DELETE("a")` live on a
fresh logging store leaves "a" absent, but the recorded log holds only the
`PUT` — the delete is never enqueued — so replaying that log against a fresh
store resurrects "a" ↦ "1": the replayed mapping differs from the live one. -/
theorem C1_replay_divergence :
    storeLookup (fun _ => 0)
        (performAll (fun _ => 0) (freshGod true) [⟨PUT, ["a", "1"]⟩, ⟨DELETE, ["a"]⟩]) "a"
      = none
    ∧ (performAll (fun _ => 0) (freshGod true) [⟨PUT, ["a", "1"]⟩, ⟨DELETE, ["a"]⟩]).logQueue
      = [⟨PUT, ["a", "1"]⟩]
    ∧ storeLookup (fun _ => 0)
        (performAll (fun _ => 0) (freshGod false)
          (performAll (fun _ => 0) (freshGod true)
            [⟨PUT, ["a", "1"]⟩, ⟨DELETE, ["a"]⟩]).logQueue) "a"
      = some "1" := by
  decide

/-- Claim C2 (failing behaviour): `del` never touches the log queue —
for every store and operation its log queue is returned unchanged — while a
correct-arity `put` with logging enabled appends its operation. -/
theorem C2_delete_never_logged :
    (∀ (hc : String → Nat) (g : God) (o : Operation),
        (God.del hc g o).1.logQueue = g.logQueue)
    ∧ (God.put (fun _ => 0) (freshGod true) ⟨PUT, ["a", "1"]⟩).1.logQueue = [⟨PUT, ["a", "1"]⟩]
    ∧ (God.del (fun _ => 0) (freshGod true) ⟨DELETE, ["a"]⟩).1.logQueue = [] := by
  refine ⟨fun hc g o => del_state_logQueue hc g o, by decide, by decide⟩

lemma get_result_cases (hc : String → Nat) (g : God) (o : Operation) :
    (God.get hc g o).2.result = BAD ||| ARITY
    ∨ (God.get hc g o).2.result = OK ||| EXISTS
    ∨ (God.get hc g o).2.result = OK ||| MISSING := by
  unfold God.get
  split
  · exact Or.inl rfl
  · dsimp only
    split
    · exact Or.inr (Or.inl rfl)
    · exact Or.inr (Or.inr rfl)

lemma put_result_cases (hc : String → Nat) (g : God) (o : Operation) :
    (God.put hc g o).2.result = BAD ||| ARITY
    ∨ (God.put hc g o).2.result = OK ||| EXISTS
    ∨ (God.put hc g o).2.result = OK ||| MISSING := by
  unfold God.put
  split
  · exact Or.inl rfl
  · dsimp only
    split
    · exact Or.inr (Or.inl rfl)
    · exact Or.inr (Or.inr rfl)

lemma del_result_cases (hc : String → Nat) (g : God) (o : Operation) :
    (God.del hc g o).2.result = BAD ||| ARITY
    ∨ (God.del hc g o).2.result = OK ||| EXISTS
    ∨ (God.del hc g o).2.result = OK ||| MISSING := by
  unfold God.del
  split
  · exact Or.inl rfl
  · dsimp only
    split
    · exact Or.inr (Or.inl rfl)
    · exact Or.inr (Or.inr rfl)

lemma keys_result_cases (hc : String → Nat) (g : God) (o : Operation) :
    (God.keys hc g o).2.result = BAD ||| ARITY ∨ (God.keys hc g o).2.result = OK := by
  unfold God.keys
  split
  · exact Or.inl rfl
  · exact Or.inr rfl

/-- Claim C8 (counterexample): a correct-arity `GET` on an absent key
produces result `OK|MISSING`, which carries two of the six bitmask flags yet
is not `BAD|ARITY` — so `BAD|ARITY` is not the only multi-flag Result. -/
theorem C8_multi_flag_counterexample :
    (God.Perform (fun _ => 0) (freshGod true) ⟨GET, ["a"]⟩).2.result = OK ||| MISSING
    ∧ 1 < flagCount (OK ||| MISSING)
    ∧ OK ||| MISSING ≠ BAD ||| ARITY := by
  decide

/-- Claim C8 as amended: every Result produced by `Perform` is one of
`OK|EXISTS`, `OK|MISSING`, `OK`, `UNKNOWN`, `BAD|ARITY`; the bitmask is
never zero; and `BAD|ARITY` is the only produced Result carrying the `BAD`
or `ARITY` flag. -/
theorem C8_result_values (hc : String → Nat) (g : God) (o : Operation) :
    ((God.Perform hc g o).2.result = OK ||| EXISTS
      ∨ (God.Perform hc g o).2.result = OK ||| MISSING
      ∨ (God.Perform hc g o).2.result = OK
      ∨ (God.Perform hc g o).2.result = UNKNOWN
      ∨ (God.Perform hc g o).2.result = BAD ||| ARITY)
    ∧ (God.Perform hc g o).2.result ≠ 0
    ∧ ((God.Perform hc g o).2.result &&& (BAD ||| ARITY) ≠ 0
        → (God.Perform hc g o).2.result = BAD ||| ARITY) := by
  have h5 : (God.Perform hc g o).2.result = OK ||| EXISTS
      ∨ (God.Perform hc g o).2.result = OK ||| MISSING
      ∨ (God.Perform hc g o).2.result = OK
      ∨ (God.Perform hc g o).2.result = UNKNOWN
      ∨ (God.Perform hc g o).2.result = BAD ||| ARITY := by
    unfold God.Perform
    split_ifs with hg hp hd hk
    · rcases get_result_cases hc g o with h | h | h <;> rw [h] <;> tauto
    · rcases put_result_cases hc g o with h | h | h <;> rw [h] <;> tauto
    · rcases del_result_cases hc g o with h | h | h <;> rw [h] <;> tauto
    · rcases keys_result_cases hc g o with h | h <;> rw [h] <;> tauto
    · tauto
  rcases h5 with h | h | h | h | h <;> rw [h] <;> exact ⟨by tauto, by decide, by decide⟩

/-- Witness for C8: at a concrete `KEYS` operation the produced Result is
nonzero. -/
theorem C8_result_values_witness :
    (God.Perform (fun _ => 0) (freshGod true) ⟨KEYS, []⟩).2.result ≠ 0 :=
  (C8_result_values (fun _ => 0) (freshGod true) ⟨KEYS, []⟩).2.1

end god

namespace discord

/-- Claim C9: `RemoveNode` on a Remote whose address equals the node's own
address always panics (modelled as `Except.error`) and never silently
succeeds; on any other Remote it removes that Remote from the ring view. -/
theorem C9_remove_node_guard (self : Node) (remote : Remote) :
    (remote.addr = self.addr →
      self.RemoveNode remote
        = .error (self.addr ++ " is trying to remove itself from the routing!"))
    ∧ (remote.addr ≠ self.addr →
      self.RemoveNode remote = .ok { self with ring := ringRemove self.ring remote }
        ∧ remote ∉ ringRemove self.ring remote) := by
  constructor
  · intro h
    unfold Node.RemoveNode
    rw [if_pos h]
  · intro h
    unfold Node.RemoveNode
    rw [if_neg h]
    refine ⟨rfl, ?_⟩
    unfold ringRemove
    intro hmem
    rcases List.mem_filter.mp hmem with ⟨-, hdec⟩
    simp at hdec

/-- Witness for C9: removing the distinct Remote "b" from node "a"'s view
succeeds and purges it. -/
theorem C9_remove_node_guard_witness :
    Node.RemoveNode ⟨"a", [⟨[0], "a"⟩, ⟨[1], "b"⟩]⟩ ⟨[1], "b"⟩
        = .ok { addr := "a", ring := ringRemove [⟨[0], "a"⟩, ⟨[1], "b"⟩] ⟨[1], "b"⟩ }
    ∧ (⟨[1], "b"⟩ : Remote) ∉ ringRemove [⟨[0], "a"⟩, ⟨[1], "b"⟩] ⟨[1], "b"⟩ :=
  (C9_remove_node_guard ⟨"a", [⟨[0], "a"⟩, ⟨[1], "b"⟩]⟩ ⟨[1], "b"⟩).2 (by decide)

/-- Claim C7 (failing input): with the located predecessor `p` not self and
the remote call to `p` failing, one `GetSuccessor` step removes the
successor `s` from the ring view and keeps the unreachable `p` — the node
dropped is not the node that was called and found unreachable. -/
theorem C7_drops_successor_not_predecessor :
    let p : Remote := ⟨[1], "p"⟩
    let s : Remote := ⟨[2], "s"⟩
    let me : Remote := ⟨[0], "me"⟩
    let node : Node := ⟨"me", [me, p, s]⟩
    let env : RingEnv := ⟨fun _ _ => (p, none, s), fun _ => false, fun r _ => r⟩
    Node.getSuccessorStep env node [7] = .retry ⟨"me", [me, p]⟩
    ∧ p ∈ [me, p]
    ∧ s ∉ [me, p] := by
  decide

end discord
